import Mathlib

set_option maxHeartbeats 1000000

namespace ColorCorrect

/-! # Shallow embedding of the color-correction pipeline

Definitions are translated from the repository sources
`Color_correction.py`, `colorbalance.py` and `Detect_colorChecker.py`.
External library calls (OpenCV template matching, `scipy.optimize.leastsq`,
`np.random.rand`) are modelled as oracle parameters; everything the
repository itself computes is embedded directly.  Machine floats are
modelled as rationals where the code only compares and adds sampled
values, and as reals where the code takes square roots or real powers. -/

/-- The built-in reference color table `ColorCheckerRGB_CameraTrax` from
`colorbalance.py` (3 rows = RGB channels, 24 columns = patches). -/
def ColorCheckerRGB_CameraTrax : Fin 3 → Fin 24 → ℚ :=
  ![![115, 196, 91, 94, 129, 98, 223, 58, 194, 93, 162, 229,
      49, 77, 173, 241, 190, 0, 242, 203, 162, 120, 84, 50],
    ![83, 147, 122, 108, 128, 190, 124, 92, 82, 60, 190, 158,
      66, 153, 57, 201, 85, 135, 243, 203, 163, 120, 84, 50],
    ![68, 127, 155, 66, 176, 168, 47, 174, 96, 103, 62, 41,
      147, 71, 60, 25, 150, 166, 245, 204, 162, 120, 84, 52]]

/-- `np.sum(actual_colors[:, i])`: the sum of the three channel values of
patch `i` of a 3x24 sample matrix. -/
def patchSum (x : Fin 3 → Fin 24 → ℚ) (i : Fin 24) : ℚ :=
  x 0 i + x 1 i + x 2 i

/-- `cnt_color` from `Color_correction.py` lines 26-35: the number of the
three patch-pair comparisons that fire.  Each comparison fires exactly when
the observed order of the pair disagrees with the canonical-order
expectation (canonically patch 15 outshines patch 8, patch 18 outshines
patch 5, and patch 23 is darker than patch 0).  Python's negative indices
`-9`, `-6`, `-1` are columns `15`, `18`, `23` of 24. -/
def rotationVotes (x : Fin 3 → Fin 24 → ℚ) : ℕ :=
  (if patchSum x 15 < patchSum x 8 then 1 else 0) +
  (if patchSum x 18 < patchSum x 5 then 1 else 0) +
  (if patchSum x 0 < patchSum x 23 then 1 else 0)

/-- `actual_colors[:, ::-1]`: reverse the 24 columns end-to-end. -/
def reverseCols (x : Fin 3 → Fin 24 → ℚ) : Fin 3 → Fin 24 → ℚ :=
  fun c i => x c i.rev

/-- `actual_colors_std[::-1]`: reverse the dispersion sequence end-to-end. -/
def reverseStd (s : Fin 24 → ℚ) : Fin 24 → ℚ :=
  fun i => s i.rev

/-- Orientation stage of `Color_correct_and_write`
(`Color_correction.py` lines 26-40): if two or more of the three votes
fire, reverse the sample and dispersion sequences and set the rotated
flag. -/
def orientationResolve (x : Fin 3 → Fin 24 → ℚ) (s : Fin 24 → ℚ) :
    (Fin 3 → Fin 24 → ℚ) × (Fin 24 → ℚ) × Bool :=
  if 2 ≤ rotationVotes x then (reverseCols x, reverseStd s, true)
  else (x, s, false)

/-- A sample matrix is in canonical order (for the three probed pairs) when
its patch sums satisfy the relations that the reference table satisfies:
patch 8 below patch 15, patch 5 below patch 18, patch 23 below patch 0. -/
def canonicalOrder (x : Fin 3 → Fin 24 → ℚ) : Prop :=
  patchSum x 8 < patchSum x 15 ∧ patchSum x 5 < patchSum x 18 ∧
    patchSum x 23 < patchSum x 0

instance (x : Fin 3 → Fin 24 → ℚ) : Decidable (canonicalOrder x) :=
  inferInstanceAs (Decidable (_ ∧ _ ∧ _))

theorem patchSum_reverseCols (x : Fin 3 → Fin 24 → ℚ) (i : Fin 24) :
    patchSum (reverseCols x) i = patchSum x i.rev := rfl

/-- The reference table satisfies the canonical-order relations probed by
the three votes (sums 372 < 467, 456 < 730, 152 < 266). -/
theorem canonical_table : canonicalOrder ColorCheckerRGB_CameraTrax := by
  have h00 : ColorCheckerRGB_CameraTrax 0 0 = 115 := rfl
  have h10 : ColorCheckerRGB_CameraTrax 1 0 = 83 := rfl
  have h20 : ColorCheckerRGB_CameraTrax 2 0 = 68 := rfl
  have h05 : ColorCheckerRGB_CameraTrax 0 5 = 98 := rfl
  have h15 : ColorCheckerRGB_CameraTrax 1 5 = 190 := rfl
  have h25 : ColorCheckerRGB_CameraTrax 2 5 = 168 := rfl
  have h08 : ColorCheckerRGB_CameraTrax 0 8 = 194 := rfl
  have h18 : ColorCheckerRGB_CameraTrax 1 8 = 82 := rfl
  have h28 : ColorCheckerRGB_CameraTrax 2 8 = 96 := rfl
  have h0f : ColorCheckerRGB_CameraTrax 0 15 = 241 := rfl
  have h1f : ColorCheckerRGB_CameraTrax 1 15 = 201 := rfl
  have h2f : ColorCheckerRGB_CameraTrax 2 15 = 25 := rfl
  have h0s : ColorCheckerRGB_CameraTrax 0 18 = 242 := rfl
  have h1s : ColorCheckerRGB_CameraTrax 1 18 = 243 := rfl
  have h2s : ColorCheckerRGB_CameraTrax 2 18 = 245 := rfl
  have h0t : ColorCheckerRGB_CameraTrax 0 23 = 50 := rfl
  have h1t : ColorCheckerRGB_CameraTrax 1 23 = 50 := rfl
  have h2t : ColorCheckerRGB_CameraTrax 2 23 = 52 := rfl
  unfold canonicalOrder patchSum
  rw [h00, h10, h20, h05, h15, h25, h08, h18, h28, h0f, h1f, h2f, h0s, h1s,
    h2s, h0t, h1t, h2t]
  norm_num

theorem rotationVotes_of_canonical {x : Fin 3 → Fin 24 → ℚ}
    (h : canonicalOrder x) : rotationVotes x = 0 := by
  obtain ⟨h1, h2, h3⟩ := h
  unfold rotationVotes
  rw [if_neg (not_lt.2 h1.le), if_neg (not_lt.2 h2.le), if_neg (not_lt.2 h3.le)]

theorem rotationVotes_reverse_of_canonical {x : Fin 3 → Fin 24 → ℚ}
    (h : canonicalOrder x) : rotationVotes (reverseCols x) = 3 := by
  obtain ⟨h1, h2, h3⟩ := h
  unfold rotationVotes
  rw [patchSum_reverseCols, patchSum_reverseCols, patchSum_reverseCols,
    patchSum_reverseCols, patchSum_reverseCols, patchSum_reverseCols]
  have e8 : (8 : Fin 24).rev = 15 := by decide
  have e15 : (15 : Fin 24).rev = 8 := by decide
  have e5 : (5 : Fin 24).rev = 18 := by decide
  have e18 : (18 : Fin 24).rev = 5 := by decide
  have e0 : (0 : Fin 24).rev = 23 := by decide
  have e23 : (23 : Fin 24).rev = 0 := by decide
  rw [e8, e15, e5, e18, e0, e23]
  rw [if_pos h1, if_pos h2, if_pos h3]

theorem reverseCols_reverseCols (x : Fin 3 → Fin 24 → ℚ) :
    reverseCols (reverseCols x) = x := by
  funext c i
  simp [reverseCols]

theorem reverseStd_reverseStd (s : Fin 24 → ℚ) :
    reverseStd (reverseStd s) = s := by
  funext i
  simp [reverseStd]

/-- Helper: a canonical-order sample set is left unchanged with the flag
false. -/
theorem orientationResolve_of_canonical {x : Fin 3 → Fin 24 → ℚ}
    (s : Fin 24 → ℚ) (h : canonicalOrder x) :
    orientationResolve x s = (x, s, false) := by
  unfold orientationResolve
  rw [if_neg]
  rw [rotationVotes_of_canonical h]
  omega

/-- Helper: the reversal of a canonical-order sample set is restored with
the flag true. -/
theorem orientationResolve_of_reversed {x : Fin 3 → Fin 24 → ℚ}
    (s : Fin 24 → ℚ) (h : canonicalOrder x) :
    orientationResolve (reverseCols x) (reverseStd s) = (x, s, true) := by
  unfold orientationResolve
  rw [if_pos]
  · rw [reverseCols_reverseCols, reverseStd_reverseStd]
  · rw [rotationVotes_reverse_of_canonical h]
    omega

/-- C1: OrientationResolver computes three votes at the fixed index pairs
(8 vs 15), (5 vs 18), (0 vs 23); it reverses the sample sequence and the
dispersion sequence end-to-end with `rotated_flag = true` exactly when two
or more votes disagree with the canonical-order expectation; in particular
a pre-reversed canonical-order sequence is restored with the flag true,
and a canonical-order sequence is left unchanged with the flag false. -/
theorem orientation_resolver_spec :
    (∀ x s, ((orientationResolve x s).2.2 = true ↔ 2 ≤ rotationVotes x)) ∧
    (∀ x s, 2 ≤ rotationVotes x →
      orientationResolve x s = (reverseCols x, reverseStd s, true)) ∧
    (∀ x s, rotationVotes x < 2 → orientationResolve x s = (x, s, false)) ∧
    (∀ x s, canonicalOrder x → orientationResolve x s = (x, s, false)) ∧
    (∀ x s, canonicalOrder x →
      orientationResolve (reverseCols x) (reverseStd s) = (x, s, true)) := by
  refine ⟨?_, ?_, ?_, ?_, ?_⟩
  · intro x s
    unfold orientationResolve
    split
    · simp [*]
    · simp [*]
  · intro x s h
    unfold orientationResolve
    rw [if_pos h]
  · intro x s h
    unfold orientationResolve
    rw [if_neg (not_le.2 h)]
  · intro x s h
    exact orientationResolve_of_canonical s h
  · intro x s h
    exact orientationResolve_of_reversed s h

/-- Witness for C1: the reference table itself is in canonical order, is
left unchanged with the flag false, and its reversal is restored with the
flag true. -/
theorem orientation_resolver_spec_witness :
    canonicalOrder ColorCheckerRGB_CameraTrax ∧
    orientationResolve ColorCheckerRGB_CameraTrax (fun _ => 0) =
      (ColorCheckerRGB_CameraTrax, fun _ => 0, false) ∧
    orientationResolve (reverseCols ColorCheckerRGB_CameraTrax)
        (reverseStd fun _ => 0) =
      (ColorCheckerRGB_CameraTrax, fun _ => 0, true) :=
  ⟨canonical_table,
    orientation_resolver_spec.2.2.2.1 _ _ canonical_table,
    orientation_resolver_spec.2.2.2.2 _ _ canonical_table⟩

/-! ## Correction model and `correct_color` (`colorbalance.py`) -/

/-- A fitted correction model: 3x3 mixing matrix `alpha`, 3-component
offset `beta`, 3-component exponent vector `gamma` (`color_alpha`,
`color_constant`, `color_gamma` in `colorbalance.py`). -/
structure Model where
  alpha : Fin 3 → Fin 3 → ℝ
  beta : Fin 3 → ℝ
  gamma : Fin 3 → ℝ

/-- `_gamma_correction_model` (`colorbalance.py` lines 75-99) on a 3xN
color list: `scaled = alpha · colors + beta`, clipped at zero from below
(`np.clip(scaled, 0, None)`), then `corrected = 255 * (scaled/255)^gamma`
channelwise; the real power is `Real.rpow`. -/
noncomputable def gamma_correction_model (N : ℕ) (colors : Fin 3 → Fin N → ℝ)
    (m : Model) : Fin 3 → Fin N → ℝ :=
  fun c k =>
    255 * (max 0 ((∑ j, m.alpha c j * colors j k) + m.beta c) / 255) ^ m.gamma c

/-- A 3-channel pixel buffer with natural-number (uint8) channel values. -/
structure PixImage where
  H : ℕ
  W : ℕ
  pix : Fin H → Fin W → Fin 3 → ℕ

theorem flat_index_lt {H W : ℕ} (i : Fin H) (j : Fin W) :
    (i : ℕ) * W + j < H * W := by
  calc (i : ℕ) * W + j < (i : ℕ) * W + W := by
        exact Nat.add_lt_add_left j.isLt _
    _ = ((i : ℕ) + 1) * W := by ring
    _ ≤ H * W := Nat.mul_le_mul_right _ i.isLt

/-- Row-major flat index of pixel `(i, j)`, as produced by
`image.reshape([H*W, 3])`. -/
def flatIdx {H W : ℕ} (i : Fin H) (j : Fin W) : Fin (H * W) :=
  ⟨(i : ℕ) * W + j, flat_index_lt i j⟩

/-- `image.reshape([H*W, 3]).transpose()` (`correct_color` lines 261-264):
the 3x(H*W) color list of an image, column `i*W + j` holding pixel
`(i, j)`. -/
def flattenImage (img : PixImage) : Fin 3 → Fin (img.H * img.W) → ℝ :=
  fun c k =>
    have hW : 0 < img.W := by
      rcases Nat.eq_zero_or_pos img.W with h | h
      · exact absurd k.isLt (by simp [h])
      · exact h
    (img.pix ⟨(k : ℕ) / img.W, (Nat.div_lt_iff_lt_mul hW).2 k.isLt⟩
      ⟨(k : ℕ) % img.W, Nat.mod_lt _ hW⟩ c : ℝ)

/-- `correct_color` (`colorbalance.py` lines 261-282) with the default
`gamma_correction` algorithm: flatten to a 3x(H*W) color list, apply the
gamma-correction model, reshape back, clip every channel into [0,255]
(`np.clip(..., 0, 255)`) and cast to uint8 (`astype(np.uint8)`, a
truncation toward zero, i.e. the floor of the nonnegative clipped
value). -/
noncomputable def correct_color (img : PixImage) (m : Model) : PixImage :=
  ⟨img.H, img.W, fun i j c =>
    (⌊min 255 (max 0
        (gamma_correction_model (img.H * img.W) (flattenImage img) m c
          (flatIdx i j)))⌋).toNat⟩

/-- The identity model: `A = identity`, `b = 0`, `gamma = 1`. -/
noncomputable def idModel : Model :=
  ⟨fun c j => if c = j then 1 else 0, fun _ => 0, fun _ => 1⟩

theorem pix_congr (img : PixImage) {a a' : Fin img.H} {b b' : Fin img.W}
    (c : Fin 3) (ha : (a : ℕ) = (a' : ℕ)) (hb : (b : ℕ) = (b' : ℕ)) :
    img.pix a b c = img.pix a' b' c := by
  cases Fin.ext ha
  cases Fin.ext hb
  rfl

theorem flattenImage_flatIdx (img : PixImage) (i : Fin img.H)
    (j : Fin img.W) (c : Fin 3) :
    flattenImage img c (flatIdx i j) = (img.pix i j c : ℝ) := by
  have hW : 0 < img.W := j.pos
  have hdiv : ((i : ℕ) * img.W + j) / img.W = (i : ℕ) := by
    rw [Nat.mul_comm, Nat.mul_add_div hW, Nat.div_eq_of_lt j.isLt,
      Nat.add_zero]
  have hmod : ((i : ℕ) * img.W + j) % img.W = (j : ℕ) := by
    rw [Nat.mul_comm, Nat.mul_add_mod, Nat.mod_eq_of_lt j.isLt]
  unfold flattenImage flatIdx
  exact congrArg Nat.cast (pix_congr img c hdiv hmod)

/-- Evaluation of the gamma model with identity mixing matrix, arbitrary
offset and exponent 1, on channels where clipping at zero is inactive. -/
theorem gamma_correction_model_idAlpha (N : ℕ) (colors : Fin 3 → Fin N → ℝ)
    (b : Fin 3 → ℝ) (c : Fin 3) (k : Fin N) (hnn : 0 ≤ colors c k + b c) :
    gamma_correction_model N colors
      ⟨fun c j => if c = j then 1 else 0, b, fun _ => 1⟩ c k
      = colors c k + b c := by
  unfold gamma_correction_model
  simp only [ite_mul, one_mul, zero_mul, Finset.sum_ite_eq,
    Finset.mem_univ, if_true]
  rw [max_eq_right hnn, Real.rpow_one]
  field_simp

/-- C8: applying the full-matrix gamma correction with `A = identity`,
`b = 0`, `gamma = 1` is the identity mapping on every (uint8-valued)
input image: dimensions are unchanged and every pixel value is returned
exactly (rounding and clipping are inactive on uint8 inputs). -/
theorem correct_color_identity (img : PixImage)
    (hpix : ∀ i j c, img.pix i j c ≤ 255) :
    (correct_color img idModel).H = img.H ∧
    (correct_color img idModel).W = img.W ∧
    ∀ (i : Fin img.H) (j : Fin img.W) (c : Fin 3),
      (correct_color img idModel).pix i j c = img.pix i j c := by
  refine ⟨rfl, rfl, fun i j c => ?_⟩
  show (⌊min 255 (max 0
      (gamma_correction_model (img.H * img.W) (flattenImage img) idModel c
        (flatIdx i j)))⌋).toNat = img.pix i j c
  have hmodel : gamma_correction_model (img.H * img.W) (flattenImage img)
      idModel c (flatIdx i j) = (img.pix i j c : ℝ) := by
    have h0 : (0 : ℝ) ≤ flattenImage img c (flatIdx i j) + 0 := by
      rw [flattenImage_flatIdx]
      positivity
    have := gamma_correction_model_idAlpha (img.H * img.W)
      (flattenImage img) (fun _ => 0) c (flatIdx i j) h0
    rw [show idModel = ⟨fun c j => if c = j then 1 else 0, fun _ => 0,
        fun _ => 1⟩ from rfl, this, add_zero, flattenImage_flatIdx]
  rw [hmodel]
  have h1 : max (0 : ℝ) (img.pix i j c : ℝ) = (img.pix i j c : ℝ) :=
    max_eq_right (by positivity)
  have h2 : min (255 : ℝ) (img.pix i j c : ℝ) = (img.pix i j c : ℝ) := by
    apply min_eq_right
    exact_mod_cast hpix i j c
  rw [h1, h2, Int.floor_natCast, Int.toNat_natCast]

/-- Witness for C8: a concrete 1x1 image with pixel value 7 is returned
unchanged by the identity model. -/
theorem correct_color_identity_witness :
    (correct_color ⟨1, 1, fun _ _ _ => 7⟩ idModel).pix ⟨0, Nat.one_pos⟩
      ⟨0, Nat.one_pos⟩ 0 = 7 :=
  (correct_color_identity ⟨1, 1, fun _ _ _ => 7⟩
    (fun _ _ _ => by norm_num)).2.2 ⟨0, Nat.one_pos⟩ ⟨0, Nat.one_pos⟩ 0

/-- C9: for every 3-channel input image and every model, `correct_color`
returns an image of the same dimensions in which every channel value is
the model output clipped into [0,255] and then taken to an integral pixel
value (the uint8 cast floors the nonnegative clipped value, so the output
is an integer in [0,255] within distance 1 of the clipped value). -/
theorem correct_color_clips_and_rounds (img : PixImage) (m : Model) :
    (correct_color img m).H = img.H ∧ (correct_color img m).W = img.W ∧
    ∀ (i : Fin img.H) (j : Fin img.W) (c : Fin 3),
      (correct_color img m).pix i j c =
        (⌊min 255 (max 0 (gamma_correction_model (img.H * img.W)
          (flattenImage img) m c (flatIdx i j)))⌋).toNat ∧
      (correct_color img m).pix i j c ≤ 255 ∧
      ((correct_color img m).pix i j c : ℝ) ≤
        min 255 (max 0 (gamma_correction_model (img.H * img.W)
          (flattenImage img) m c (flatIdx i j))) ∧
      min 255 (max 0 (gamma_correction_model (img.H * img.W)
          (flattenImage img) m c (flatIdx i j))) <
        ((correct_color img m).pix i j c : ℝ) + 1 := by
  refine ⟨rfl, rfl, fun i j c => ?_⟩
  set v : ℝ := min 255 (max 0 (gamma_correction_model (img.H * img.W)
    (flattenImage img) m c (flatIdx i j))) with hv
  have hv0 : 0 ≤ v := le_min (by norm_num) (le_max_left _ _)
  have hv255 : v ≤ 255 := min_le_left _ _
  have hfl0 : 0 ≤ ⌊v⌋ := Int.floor_nonneg.2 hv0
  have hcast : ((⌊v⌋.toNat : ℤ) : ℝ) = (⌊v⌋ : ℝ) := by
    rw [Int.toNat_of_nonneg hfl0]
  refine ⟨rfl, ?_, ?_, ?_⟩
  · show ⌊v⌋.toNat ≤ 255
    rw [← Int.toNat_ofNat (n := 255)]
    apply Int.toNat_le_toNat
    calc ⌊v⌋ ≤ ⌊(255 : ℝ)⌋ := Int.floor_le_floor hv255
      _ = 255 := by norm_num
  · show (⌊v⌋.toNat : ℝ) ≤ v
    calc (⌊v⌋.toNat : ℝ) = ((⌊v⌋.toNat : ℤ) : ℝ) := by norm_cast
      _ = (⌊v⌋ : ℝ) := hcast
      _ ≤ v := Int.floor_le v
  · show v < (⌊v⌋.toNat : ℝ) + 1
    calc v < (⌊v⌋ : ℝ) + 1 := Int.lt_floor_add_one v
      _ = ((⌊v⌋.toNat : ℤ) : ℝ) + 1 := by rw [hcast]
      _ = (⌊v⌋.toNat : ℝ) + 1 := by norm_cast

/-! ## The `Color_correct_and_write` pipeline (`Color_correction.py`)

The pipeline is parametrized by the sampled card colors and dispersions
(the result of `get_colorcard_colors`), the photo, the detection
confidence `Acc`, and two oracles standing for the external calls:
`fit` for `scipy.optimize.leastsq` inside
`get_color_correction_parameters`, and `noise` for the per-retry
`np.random.rand(3, 24)` draw. -/

/-- `np.mean(errors)` of `Color_correct_and_write` lines 50-53: the mean,
over the 24 patches, of `sqrt(sum((true_colors - corrected)^2, axis=0))`,
where `corrected = _gamma_correction_model(actual_colors2, params)` and
`true_colors` is the CameraTrax reference table. -/
noncomputable def meanError (actual2 : Fin 3 → Fin 24 → ℚ) (m : Model) : ℝ :=
  (∑ k : Fin 24, Real.sqrt (∑ c : Fin 3,
    ((ColorCheckerRGB_CameraTrax c k : ℝ) -
      gamma_correction_model 24 (fun c k => (actual2 c k : ℝ)) m c k) ^ 2))
    / 24

/-- Result of the `while Check` retry loop: the final value of `iter`
(total number of fit attempts), the last fitted parameters and the last
mean error. -/
structure FitResult where
  attempts : ℕ
  model : Model
  meanErr : ℝ

open Classical in
/-- The `while Check` loop of `Color_correct_and_write` lines 45-61:
each pass increments `iter`, fits parameters to the current colors,
computes the mean error, and retries on `actual_colors` perturbed by the
fresh random draw exactly when `Acc > 0.4 and np.mean(errors) > 40 and
iter < 6`. -/
noncomputable def fitLoop (Acc : ℚ) (actual : Fin 3 → Fin 24 → ℚ)
    (fit : (Fin 3 → Fin 24 → ℚ) → Model)
    (noise : ℕ → Fin 3 → Fin 24 → ℚ)
    (iter : ℕ) (colors2 : Fin 3 → Fin 24 → ℚ) : FitResult :=
  if h : (2 : ℚ)/5 < Acc ∧ (40 : ℝ) < meanError colors2 (fit colors2) ∧
      iter + 1 < 6 then
    fitLoop Acc actual fit noise (iter + 1)
      (fun c k => actual c k + noise (iter + 1) c k)
  else ⟨iter + 1, fit colors2, meanError colors2 (fit colors2)⟩
termination_by 6 - iter
decreasing_by
  obtain ⟨-, -, h3⟩ := h
  omega

open Classical in
/-- Python 3 `round` to an integer: round half to even. -/
noncomputable def pyRound (x : ℝ) : ℤ :=
  if x - ⌊x⌋ < 1/2 then ⌊x⌋
  else if 1/2 < x - ⌊x⌋ then ⌊x⌋ + 1
  else if Even ⌊x⌋ then ⌊x⌋ else ⌊x⌋ + 1

/-- The diagnostics and optional output of one pipeline run:
`card_damaged`, `card_rotated`, `correction_error`, and the corrected
image written by `cv2.imwrite` when emission happens. -/
structure PipelineResult where
  damaged : Bool
  rotated : Bool
  error : ℝ
  emitted : Option PixImage

/-- The value of `r` in the non-damaged branch of
`Color_correct_and_write`: the fit loop entered with `iter = 0` and
`actual_colors2 = actual_colors` after orientation resolution (both the
start colors and the colors perturbed on retry are the post-orientation
`actual_colors`, source lines 38, 46 and 58). -/
noncomputable def pipelineFit (actual_colors : Fin 3 → Fin 24 → ℚ)
    (actual_colors_std : Fin 24 → ℚ) (Acc : ℚ)
    (fit : (Fin 3 → Fin 24 → ℚ) → Model)
    (noise : ℕ → Fin 3 → Fin 24 → ℚ) : FitResult :=
  fitLoop Acc (orientationResolve actual_colors actual_colors_std).1 fit noise
    0 (orientationResolve actual_colors actual_colors_std).1

/-- `correction_error = round((np.mean(errors)/255)*10000)/float(100)`
(source line 63). -/
noncomputable def pipelineError (actual_colors : Fin 3 → Fin 24 → ℚ)
    (actual_colors_std : Fin 24 → ℚ) (Acc : ℚ)
    (fit : (Fin 3 → Fin 24 → ℚ) → Model)
    (noise : ℕ → Fin 3 → Fin 24 → ℚ) : ℝ :=
  (pyRound ((pipelineFit actual_colors actual_colors_std Acc fit
    noise).meanErr / 255 * 10000) : ℝ) / 100

open Classical in
/-- `Color_correct_and_write` (`Color_correction.py` lines 8-73): damage
gate `any(actual_colors_std > 90)` with early return `(True, False, 0)`;
orientation resolution; bounded retry fit loop; error percentage
`round(mean/255*10000)/100`; emission of the corrected image exactly when
the error percentage is below 50. -/
noncomputable def Color_correct_and_write
    (actual_colors : Fin 3 → Fin 24 → ℚ) (actual_colors_std : Fin 24 → ℚ)
    (image : PixImage) (Acc : ℚ)
    (fit : (Fin 3 → Fin 24 → ℚ) → Model)
    (noise : ℕ → Fin 3 → Fin 24 → ℚ) : PipelineResult :=
  if ∃ i, 90 < actual_colors_std i then ⟨true, false, 0, none⟩
  else if pipelineError actual_colors actual_colors_std Acc fit noise < 50
    then
    ⟨false, (orientationResolve actual_colors actual_colors_std).2.2,
      pipelineError actual_colors actual_colors_std Acc fit noise,
      some (correct_color image
        (pipelineFit actual_colors actual_colors_std Acc fit noise).model)⟩
  else
    ⟨false, (orientationResolve actual_colors actual_colors_std).2.2,
      pipelineError actual_colors actual_colors_std Acc fit noise, none⟩

/-- A 1x1 all-black photo, used as a concrete input in witnesses. -/
def testImage : PixImage := ⟨1, 1, fun _ _ _ => 0⟩

/-- Unfolding of the loop when the retry condition fails. -/
theorem fitLoop_stop (Acc : ℚ) (actual : Fin 3 → Fin 24 → ℚ)
    (fit : (Fin 3 → Fin 24 → ℚ) → Model) (noise : ℕ → Fin 3 → Fin 24 → ℚ)
    (iter : ℕ) (colors2 : Fin 3 → Fin 24 → ℚ)
    (h : ¬((2 : ℚ)/5 < Acc ∧ (40 : ℝ) < meanError colors2 (fit colors2) ∧
      iter + 1 < 6)) :
    fitLoop Acc actual fit noise iter colors2 =
      ⟨iter + 1, fit colors2, meanError colors2 (fit colors2)⟩ := by
  rw [fitLoop, dif_neg h]

/-- Unfolding of the loop when the retry condition holds. -/
theorem fitLoop_retry (Acc : ℚ) (actual : Fin 3 → Fin 24 → ℚ)
    (fit : (Fin 3 → Fin 24 → ℚ) → Model) (noise : ℕ → Fin 3 → Fin 24 → ℚ)
    (iter : ℕ) (colors2 : Fin 3 → Fin 24 → ℚ)
    (h : (2 : ℚ)/5 < Acc ∧ (40 : ℝ) < meanError colors2 (fit colors2) ∧
      iter + 1 < 6) :
    fitLoop Acc actual fit noise iter colors2 =
      fitLoop Acc actual fit noise (iter + 1)
        (fun c k => actual c k + noise (iter + 1) c k) := by
  rw [fitLoop, dif_pos h]

/-- The loop makes at most `max (iter+1) 6` attempts from counter `iter`. -/
theorem fitLoop_attempts_le (Acc : ℚ) (actual : Fin 3 → Fin 24 → ℚ)
    (fit : (Fin 3 → Fin 24 → ℚ) → Model)
    (noise : ℕ → Fin 3 → Fin 24 → ℚ) :
    ∀ n iter colors2, 6 - iter ≤ n →
      (fitLoop Acc actual fit noise iter colors2).attempts ≤
        max (iter + 1) 6 := by
  intro n
  induction n with
  | zero =>
    intro iter colors2 hn
    rw [fitLoop_stop Acc actual fit noise iter colors2 (by omega)]
    exact le_max_left _ _
  | succ n ih =>
    intro iter colors2 hn
    by_cases hc : (2 : ℚ)/5 < Acc ∧
        (40 : ℝ) < meanError colors2 (fit colors2) ∧ iter + 1 < 6
    · rw [fitLoop_retry Acc actual fit noise iter colors2 hc]
      have h6 : iter + 1 < 6 := hc.2.2
      have := ih (iter + 1) (fun c k => actual c k + noise (iter + 1) c k)
        (by omega)
      omega
    · rw [fitLoop_stop Acc actual fit noise iter colors2 hc]
      exact le_max_left _ _

/-- Every entry of the reference table is nonnegative. -/
theorem table_nonneg : ∀ c k, 0 ≤ ColorCheckerRGB_CameraTrax c k := by decide

/-- A model with identity mixing matrix, offset `(β, 0, 0)` and exponent
1; used as a concrete fit-oracle output in witnesses. -/
noncomputable def offsetModel (β : ℚ) : Model :=
  ⟨fun c j => if c = j then 1 else 0,
    fun c => if c = 0 then (β : ℝ) else 0, fun _ => 1⟩

/-- On the reference table, the offset model produces a mean error of
exactly `β`: every patch differs from its reference by `(β, 0, 0)`. -/
theorem meanError_offset (β : ℚ) (hβ : 0 ≤ β) :
    meanError ColorCheckerRGB_CameraTrax (offsetModel β) = (β : ℝ) := by
  have hβR : (0 : ℝ) ≤ (β : ℚ) := by exact_mod_cast hβ
  have hb : ∀ c : Fin 3, 0 ≤ (if c = (0 : Fin 3) then (β : ℝ) else 0) := by
    intro c
    split
    · exact hβR
    · exact le_refl 0
  have hcor : ∀ (c : Fin 3) (k : Fin 24),
      gamma_correction_model 24
        (fun c k => (ColorCheckerRGB_CameraTrax c k : ℝ)) (offsetModel β) c k
        = (ColorCheckerRGB_CameraTrax c k : ℝ) +
          (if c = (0 : Fin 3) then (β : ℝ) else 0) := by
    intro c k
    exact gamma_correction_model_idAlpha 24 _ _ c k
      (add_nonneg (by exact_mod_cast table_nonneg c k) (hb c))
  unfold meanError
  have hsq : ∀ k : Fin 24, (∑ c : Fin 3,
      ((ColorCheckerRGB_CameraTrax c k : ℝ) -
        gamma_correction_model 24
          (fun c k => (ColorCheckerRGB_CameraTrax c k : ℝ)) (offsetModel β)
          c k) ^ 2) = (β : ℝ) ^ 2 := by
    intro k
    simp only [hcor]
    rw [Fin.sum_univ_three]
    rw [if_pos rfl, if_neg (by decide : ¬((1 : Fin 3) = 0)),
      if_neg (by decide : ¬((2 : Fin 3) = 0))]
    ring
  simp only [hsq, Real.sqrt_sq hβR]
  rw [Finset.sum_const, Finset.card_fin, nsmul_eq_mul]
  norm_num

/-- Python `round` of an integer is that integer. -/
theorem pyRound_intCast (n : ℤ) : pyRound (n : ℝ) = n := by
  unfold pyRound
  rw [Int.floor_intCast, sub_self]
  norm_num

/-- Full evaluation of the pipeline on the reference table with zero
dispersions, confidence 0, and a fit oracle returning `offsetModel β`. -/
theorem pipeline_offset (β : ℚ) (hβ : 0 ≤ β) :
    Color_correct_and_write ColorCheckerRGB_CameraTrax (fun _ => 0) testImage
      0 (fun _ => offsetModel β) (fun _ _ _ => 0) =
      if ((pyRound ((β : ℝ) / 255 * 10000) : ℝ) / 100) < 50 then
        ⟨false, false, (pyRound ((β : ℝ) / 255 * 10000) : ℝ) / 100,
          some (correct_color testImage (offsetModel β))⟩
      else
        ⟨false, false, (pyRound ((β : ℝ) / 255 * 10000) : ℝ) / 100, none⟩ := by
  have hnd : ¬ ∃ i : Fin 24, (90 : ℚ) < (fun _ : Fin 24 => (0 : ℚ)) i := by
    rintro ⟨i, hi⟩
    norm_num at hi
  have ho : orientationResolve ColorCheckerRGB_CameraTrax
      (fun _ : Fin 24 => (0 : ℚ)) =
      (ColorCheckerRGB_CameraTrax, fun _ => 0, false) :=
    orientationResolve_of_canonical _ canonical_table
  have hstop := fitLoop_stop 0 ColorCheckerRGB_CameraTrax
    (fun _ => offsetModel β) (fun _ _ _ => 0) 0 ColorCheckerRGB_CameraTrax
    (fun hh => absurd hh.1 (by norm_num))
  have hfit : pipelineFit ColorCheckerRGB_CameraTrax (fun _ => 0) 0
      (fun _ => offsetModel β) (fun _ _ _ => 0) =
      ⟨1, offsetModel β, (β : ℝ)⟩ := by
    unfold pipelineFit
    rw [ho]
    rw [hstop]
    rw [meanError_offset β hβ]
  have herr : pipelineError ColorCheckerRGB_CameraTrax (fun _ => 0) 0
      (fun _ => offsetModel β) (fun _ _ _ => 0) =
      (pyRound ((β : ℝ) / 255 * 10000) : ℝ) / 100 := by
    unfold pipelineError
    rw [hfit]
  unfold Color_correct_and_write
  rw [if_neg hnd, herr, hfit, ho]

/-- C4: the damage gate is strict: the pipeline reports `damaged = true`
exactly when some patch dispersion strictly exceeds 90; all dispersions
exactly 90 do not trigger damage, while a single dispersion of 91 does. -/
theorem damage_gate_strict :
    (∀ colors std image Acc fit noise,
      (Color_correct_and_write colors std image Acc fit noise).damaged
          = true ↔ ∃ i, 90 < std i) ∧
    (Color_correct_and_write ColorCheckerRGB_CameraTrax (fun _ => 90)
      testImage 0 (fun _ => offsetModel 0) (fun _ _ _ => 0)).damaged
      = false ∧
    (Color_correct_and_write ColorCheckerRGB_CameraTrax
      (fun i => if i = 0 then 91 else 90) testImage 0 (fun _ => offsetModel 0)
      (fun _ _ _ => 0)).damaged = true := by
  have hgen : ∀ colors std image Acc fit noise,
      (Color_correct_and_write colors std image Acc fit noise).damaged
        = true ↔ ∃ i, 90 < std i := by
    intro colors std image Acc fit noise
    by_cases hd : ∃ i, 90 < std i
    · unfold Color_correct_and_write
      rw [if_pos hd]
      simpa using hd
    · unfold Color_correct_and_write
      rw [if_neg hd, apply_ite PipelineResult.damaged]
      simpa using hd
  refine ⟨hgen, ?_, (hgen _ _ _ _ _ _).2 ⟨0, by norm_num⟩⟩
  rw [Bool.eq_false_iff]
  intro htrue
  obtain ⟨i, hi⟩ := (hgen ColorCheckerRGB_CameraTrax (fun _ => 90) testImage 0
    (fun _ => offsetModel 0) (fun _ _ _ => 0)).1 htrue
  exact absurd hi (by norm_num)

/-- Witness for C4: the boundary input with one dispersion at 91 triggers
the damage flag. -/
theorem damage_gate_strict_witness :
    (Color_correct_and_write ColorCheckerRGB_CameraTrax
      (fun i => if i = 0 then 91 else 90) testImage 0 (fun _ => offsetModel 0)
      (fun _ _ _ => 0)).damaged = true := damage_gate_strict.2.2

/-- C10: whenever the damage gate fires, the pipeline returns immediately
with `damaged = true`, `rotated = false` and correction error 0, emitting
nothing; the result does not depend on the image, the confidence or the
fit/noise oracles, so orientation resolution, fitting and emission are
never performed and the error 0 is a placeholder. -/
theorem damaged_short_circuit (colors : Fin 3 → Fin 24 → ℚ)
    (std : Fin 24 → ℚ) (image : PixImage) (Acc : ℚ)
    (fit : (Fin 3 → Fin 24 → ℚ) → Model) (noise : ℕ → Fin 3 → Fin 24 → ℚ)
    (h : ∃ i, 90 < std i) :
    Color_correct_and_write colors std image Acc fit noise =
      ⟨true, false, 0, none⟩ := by
  unfold Color_correct_and_write
  rw [if_pos h]

/-- Witness for C10: a concrete damaged sample set returns the placeholder
result. -/
theorem damaged_short_circuit_witness :
    Color_correct_and_write ColorCheckerRGB_CameraTrax
      (fun i => if i = 0 then 91 else 0) testImage (1/2)
      (fun _ => offsetModel 0) (fun _ _ _ => 0) = ⟨true, false, 0, none⟩ :=
  damaged_short_circuit _ _ _ _ _ _ ⟨0, by norm_num⟩

/-- C6: the adaptive retry loop is bounded: a retry (refitting from
scratch on the post-orientation observed colors perturbed by the fresh
per-attempt noise draw, modelling `np.random.rand(3,24)`) occurs exactly
when `Acc > 0.4` and the mean error exceeds 40 and fewer than 6 fit
attempts have been made, so the loop terminates after at most 6 fit
attempts. -/
theorem fit_retry_bounded (Acc : ℚ) (actual : Fin 3 → Fin 24 → ℚ)
    (fit : (Fin 3 → Fin 24 → ℚ) → Model)
    (noise : ℕ → Fin 3 → Fin 24 → ℚ) :
    (∀ iter colors2,
      ((2 : ℚ)/5 < Acc ∧ (40 : ℝ) < meanError colors2 (fit colors2) ∧
        iter + 1 < 6) →
      fitLoop Acc actual fit noise iter colors2 =
        fitLoop Acc actual fit noise (iter + 1)
          (fun c k => actual c k + noise (iter + 1) c k)) ∧
    (∀ iter colors2,
      ¬((2 : ℚ)/5 < Acc ∧ (40 : ℝ) < meanError colors2 (fit colors2) ∧
        iter + 1 < 6) →
      fitLoop Acc actual fit noise iter colors2 =
        ⟨iter + 1, fit colors2, meanError colors2 (fit colors2)⟩) ∧
    (fitLoop Acc actual fit noise 0 actual).attempts ≤ 6 := by
  refine ⟨fun iter c2 h => fitLoop_retry Acc actual fit noise iter c2 h,
    fun iter c2 h => fitLoop_stop Acc actual fit noise iter c2 h, ?_⟩
  have h := fitLoop_attempts_le Acc actual fit noise 6 0 actual (by omega)
  simpa using h

/-- Witness for C6: with confidence 0 the loop stops after one attempt,
and the attempt bound holds. -/
theorem fit_retry_bounded_witness :
    fitLoop 0 ColorCheckerRGB_CameraTrax (fun _ => offsetModel 0)
        (fun _ _ _ => 0) 0 ColorCheckerRGB_CameraTrax =
      ⟨1, offsetModel 0,
        meanError ColorCheckerRGB_CameraTrax (offsetModel 0)⟩ ∧
    (fitLoop 0 ColorCheckerRGB_CameraTrax (fun _ => offsetModel 0)
        (fun _ _ _ => 0) 0 ColorCheckerRGB_CameraTrax).attempts ≤ 6 :=
  ⟨(fit_retry_bounded 0 ColorCheckerRGB_CameraTrax (fun _ => offsetModel 0)
      (fun _ _ _ => 0)).2.1 0 ColorCheckerRGB_CameraTrax
      (fun h => absurd h.1 (by norm_num)),
    (fit_retry_bounded 0 ColorCheckerRGB_CameraTrax (fun _ => offsetModel 0)
      (fun _ _ _ => 0)).2.2⟩

/-- C5: on the non-damaged path the pipeline emits a corrected image
exactly when the reported error percentage is strictly below 50; a run
whose error percentage is exactly 50.00 is rejected (error still reported,
`damaged = false`, nothing emitted) while 49.99 is accepted. -/
theorem error_gate_boundary :
    (∀ colors std image Acc fit noise, ¬(∃ i, 90 < std i) →
      ((Color_correct_and_write colors std image Acc
          fit noise).emitted.isSome = true ↔
        (Color_correct_and_write colors std image Acc fit noise).error
          < 50)) ∧
    Color_correct_and_write ColorCheckerRGB_CameraTrax (fun _ => 0) testImage
      0 (fun _ => offsetModel (255/2)) (fun _ _ _ => 0) =
      ⟨false, false, 50, none⟩ ∧
    (Color_correct_and_write ColorCheckerRGB_CameraTrax (fun _ => 0)
      testImage 0 (fun _ => offsetModel (254949/2000))
      (fun _ _ _ => 0)).error = 4999/100 ∧
    (Color_correct_and_write ColorCheckerRGB_CameraTrax (fun _ => 0)
      testImage 0 (fun _ => offsetModel (254949/2000))
      (fun _ _ _ => 0)).emitted.isSome = true := by
  have hgen : ∀ colors std image Acc fit noise, ¬(∃ i, 90 < std i) →
      ((Color_correct_and_write colors std image Acc
          fit noise).emitted.isSome = true ↔
        (Color_correct_and_write colors std image Acc fit noise).error
          < 50) := by
    intro colors std image Acc fit noise h
    unfold Color_correct_and_write
    rw [if_neg h]
    split_ifs with hc
    · simpa using hc
    · simpa using hc
  have h50cast : ((255 / 2 : ℚ) : ℝ) / 255 * 10000 = ((5000 : ℤ) : ℝ) := by
    push_cast
    norm_num
  have h49cast : ((254949 / 2000 : ℚ) : ℝ) / 255 * 10000
      = ((4999 : ℤ) : ℝ) := by
    push_cast
    norm_num
  have h50 := pipeline_offset (255/2) (by norm_num)
  rw [h50cast, pyRound_intCast] at h50
  rw [if_neg (by norm_num)] at h50
  have h49 := pipeline_offset (254949/2000) (by norm_num)
  rw [h49cast, pyRound_intCast] at h49
  rw [if_pos (by norm_num)] at h49
  refine ⟨hgen, ?_, ?_, ?_⟩
  · rw [h50]
    simp only [PipelineResult.mk.injEq]
    norm_num
  · rw [h49]
    norm_num
  · rw [h49]
    rfl

/-- Witness for C5: the emission iff instantiated at a concrete
non-damaged run. -/
theorem error_gate_boundary_witness :
    ((Color_correct_and_write ColorCheckerRGB_CameraTrax (fun _ => 0)
        testImage 0 (fun _ => offsetModel (255/2))
        (fun _ _ _ => 0)).emitted.isSome = true ↔
      (Color_correct_and_write ColorCheckerRGB_CameraTrax (fun _ => 0)
        testImage 0 (fun _ => offsetModel (255/2))
        (fun _ _ _ => 0)).error < 50) :=
  error_gate_boundary.1 _ _ _ _ _ _ (by
    rintro ⟨i, hi⟩
    norm_num at hi)

/-! ## Patch sampling (`colorbalance.get_colorcard_colors`) -/

/-- A cropped card image: height, width, and a total pixel map (only
indices below `H`/`W` are meaningful; the code's sampling windows stay
inside the image whenever they are nonempty). -/
structure CardImage where
  H : ℕ
  W : ℕ
  pix : ℕ → ℕ → Fin 3 → ℚ

/-- `np.median` of a list of values, `none` on the empty list (numpy
returns NaN with a runtime warning there): middle element of the sorted
list for odd length, mean of the two middle elements for even length. -/
def npMedian (l : List ℚ) : Option ℚ :=
  if l = [] then none
  else
    some (
      if (l.mergeSort (fun a b => decide (a ≤ b))).length % 2 = 1 then
        (l.mergeSort (fun a b => decide (a ≤ b))).getD (l.length / 2) 0
      else
        ((l.mergeSort (fun a b => decide (a ≤ b))).getD
            (l.length / 2 - 1) 0 +
          (l.mergeSort (fun a b => decide (a ≤ b))).getD (l.length / 2) 0)
          / 2)

/-- Population standard deviation `np.std` of a list, `none` on the empty
list (NaN). -/
noncomputable def npStd (l : List ℚ) : Option ℝ :=
  if l = [] then none
  else
    some (Real.sqrt (((l.map (fun x => ((x : ℝ) -
      (l.map (fun x => (x : ℝ))).sum / l.length) ^ 2)).sum) / l.length))

/-- `int(0.2 * shape / grid)`: the half-extent of a sampling window
(`sample_size_row` / `sample_size_col`, lines 214-215). -/
def sampleSize (shape grid : ℕ) : ℕ :=
  (⌊(1/5 * (shape : ℚ)) / grid⌋).toNat

/-- `int((idx + 0.5) * shape / grid)`: a window center coordinate
(`r` / `c`, lines 218-219). -/
def cellCenter (idx shape grid : ℕ) : ℕ :=
  (⌊(((idx : ℚ) + 1/2) * shape) / grid⌋).toNat

/-- The channel-`j` sample window of grid cell `(row, col)`:
`card[r - ssr : r + ssr, c - ssc : c + ssc, j]` flattened (line 222). -/
def cellSlice (img : CardImage) (grid_cols grid_rows row col : ℕ)
    (j : Fin 3) : List ℚ :=
  (List.range' (cellCenter row img.H grid_rows - sampleSize img.H grid_rows)
      (cellCenter row img.H grid_rows + sampleSize img.H grid_rows -
        (cellCenter row img.H grid_rows -
          sampleSize img.H grid_rows))).flatMap
    (fun a =>
      (List.range'
          (cellCenter col img.W grid_cols - sampleSize img.W grid_cols)
          (cellCenter col img.W grid_cols + sampleSize img.W grid_cols -
            (cellCenter col img.W grid_cols -
              sampleSize img.W grid_cols))).map
        (fun b => img.pix a b j))

/-- `get_colorcard_colors` (`colorbalance.py` lines 194-228): per-patch
median colors and summed per-channel standard deviations, patch index
`i = row * grid_cols + col` (row-major).  The zero-initialized
`colors_std[i] = 0 + std + std + std` is `none` when the window is empty
(numpy: `0 + nan = nan`).  The function is total: no error is ever
raised. -/
noncomputable def get_colorcard_colors (img : CardImage)
    (grid_cols grid_rows : ℕ) :
    (Fin 3 → ℕ → Option ℚ) × (ℕ → Option ℝ) :=
  (fun j i => npMedian (cellSlice img grid_cols grid_rows (i / grid_cols)
      (i % grid_cols) j),
   fun i => do
     let a ← npStd (cellSlice img grid_cols grid_rows (i / grid_cols)
       (i % grid_cols) 0)
     let b ← npStd (cellSlice img grid_cols grid_rows (i / grid_cols)
       (i % grid_cols) 1)
     let c ← npStd (cellSlice img grid_cols grid_rows (i / grid_cols)
       (i % grid_cols) 2)
     pure (0 + a + b + c))

/-- When `0.2 * shape / grid < 1` the window half-extent truncates to 0. -/
theorem sampleSize_zero {shape g : ℕ} (hg : 0 < g) (h : shape < 5 * g) :
    sampleSize shape g = 0 := by
  unfold sampleSize
  have hgQ : (0 : ℚ) < g := by exact_mod_cast hg
  have hlt : (1/5 * (shape : ℚ)) / g < 1 := by
    rw [div_lt_one hgQ]
    have : (shape : ℚ) < 5 * g := by exact_mod_cast h
    linarith
  have h0 : 0 ≤ (1/5 * (shape : ℚ)) / g := by positivity
  rw [Int.floor_eq_zero_iff.2 ⟨h0, hlt⟩]
  rfl

/-- A zero row half-extent makes every window empty. -/
theorem cellSlice_empty (img : CardImage) (grid_cols grid_rows row col : ℕ)
    (j : Fin 3) (h : sampleSize img.H grid_rows = 0) :
    cellSlice img grid_cols grid_rows row col j = [] := by
  unfold cellSlice
  rw [h]
  simp

/-- C3 (amended): `get_colorcard_colors` defines no error path at all: on
a card image whose height makes the sampling window collapse to zero rows
(in particular the empty image), it silently returns undefined (NaN,
modelled `none`) medians and dispersions for every patch and channel
instead of failing with an `EmptySampleRegion` error. -/
theorem sampler_silent_nan (img : CardImage) (h : img.H < 20) :
    ∀ (j : Fin 3) (i : ℕ),
      (get_colorcard_colors img 6 4).1 j i = none ∧
      (get_colorcard_colors img 6 4).2 i = none := by
  intro j i
  have hz : sampleSize img.H 4 = 0 :=
    sampleSize_zero (by norm_num) (by omega)
  have hempty : ∀ j' : Fin 3,
      cellSlice img 6 4 (i / 6) (i % 6) j' = [] :=
    fun j' => cellSlice_empty img 6 4 (i / 6) (i % 6) j' hz
  constructor
  · show npMedian (cellSlice img 6 4 (i / 6) (i % 6) j) = none
    rw [hempty j]
    rfl
  · show (do
      let a ← npStd (cellSlice img 6 4 (i / 6) (i % 6) 0)
      let b ← npStd (cellSlice img 6 4 (i / 6) (i % 6) 1)
      let c ← npStd (cellSlice img 6 4 (i / 6) (i % 6) 2)
      pure (0 + a + b + c)) = none
    rw [hempty 0]
    rfl

/-- Witness for C3 (amended): a 10x30 card image (window collapses to
zero rows) silently yields `none` statistics. -/
theorem sampler_silent_nan_witness :
    (get_colorcard_colors ⟨10, 30, fun _ _ _ => 5⟩ 6 4).1 0 3 = none ∧
    (get_colorcard_colors ⟨10, 30, fun _ _ _ => 5⟩ 6 4).2 3 = none :=
  sampler_silent_nan ⟨10, 30, fun _ _ _ => 5⟩ (by norm_num) 0 3

/-- C3 counterexample: on the empty card image the sampler does not fail
with an `EmptySampleRegion` error (no error value exists in its
codomain); it silently returns the degenerate `none` (NaN) median and
dispersion. -/
theorem sampler_empty_counterexample :
    (get_colorcard_colors ⟨0, 0, fun _ _ _ => 0⟩ 6 4).1 0 0 = none ∧
    (get_colorcard_colors ⟨0, 0, fun _ _ _ => 0⟩ 6 4).2 0 = none := by
  have hz : sampleSize (0 : ℕ) 4 = 0 :=
    sampleSize_zero (by norm_num) (by norm_num)
  have hempty : ∀ j' : Fin 3,
      cellSlice ⟨0, 0, fun _ _ _ => 0⟩ 6 4 0 0 j' = [] :=
    fun j' => cellSlice_empty ⟨0, 0, fun _ _ _ => 0⟩ 6 4 0 0 j' hz
  constructor
  · show npMedian (cellSlice ⟨0, 0, fun _ _ _ => 0⟩ 6 4 (0 / 6) (0 % 6) 0)
      = none
    rw [show (0 : ℕ) / 6 = 0 from rfl, show (0 : ℕ) % 6 = 0 from rfl,
      hempty 0]
    rfl
  · show (do
      let a ← npStd (cellSlice ⟨0, 0, fun _ _ _ => 0⟩ 6 4 (0 / 6) (0 % 6) 0)
      let b ← npStd (cellSlice ⟨0, 0, fun _ _ _ => 0⟩ 6 4 (0 / 6) (0 % 6) 1)
      let c ← npStd (cellSlice ⟨0, 0, fun _ _ _ => 0⟩ 6 4 (0 / 6) (0 % 6) 2)
      pure (0 + a + b + c)) = none
    rw [show (0 : ℕ) / 6 = 0 from rfl, show (0 : ℕ) % 6 = 0 from rfl,
      hempty 0]
    rfl

/-! ## Template-matching scale search (`Detect_colorChecker.py`) -/

/-- The best-match bookkeeping tuple
`found = (maxVal, maxLoc, r, scale2)`. -/
structure Found where
  maxVal : ℚ
  maxLoc : ℤ × ℤ
  ratio : ℚ
  scale : ℚ
deriving DecidableEq

/-- Per-scale data for one angle: the dimensions of the resized image
(`imutils.resize`) and the template-matching peak (`cv2.matchTemplate` +
`cv2.minMaxLoc`), both modelled as oracle data, together with the resize
ratio `r` and the scale factor `scale2`. -/
structure ScaleItem where
  resizedH : ℕ
  resizedW : ℕ
  maxVal : ℚ
  maxLoc : ℤ × ℤ
  ratio : ℚ
  scale : ℚ
deriving DecidableEq

/-- `if found is None or maxVal > found[0]: found = (maxVal, maxLoc, r,
scale2)` (lines 29-30). -/
def updateFound (found : Option Found) (it : ScaleItem) : Option Found :=
  match found with
  | none => some ⟨it.maxVal, it.maxLoc, it.ratio, it.scale⟩
  | some f =>
    if f.maxVal < it.maxVal then
      some ⟨it.maxVal, it.maxLoc, it.ratio, it.scale⟩
    else some f

/-- The scale loop of `paralell_search` (lines 13-31), instrumented with
the list of scales actually evaluated by template matching: scanning in
list order, it breaks at the first scale whose resized image is smaller
than the template in either dimension (`resized.shape[0] < H_card or
resized.shape[1] < W_card`, line 22), and otherwise evaluates the scale
and updates the best match. -/
def scaleLoop (Hc Wc : ℕ) (found : Option Found) :
    List ScaleItem → Option Found × List ScaleItem
  | [] => (found, [])
  | it :: rest =>
    if it.resizedH < Hc ∨ it.resizedW < Wc then (found, [])
    else
      ((scaleLoop Hc Wc (updateFound found it) rest).1,
        it :: (scaleLoop Hc Wc (updateFound found it) rest).2)

/-- `paralell_search` for one angle: the loop started from `found = None`;
the returned value is `None` when no scale was evaluated. -/
def paralell_search (Hc Wc : ℕ) (items : List ScaleItem) : Option Found :=
  (scaleLoop Hc Wc none items).1

/-- Python errors raised by `detect_card`'s result unpacking. -/
inductive PyError where
  | typeError
  | valueError
deriving DecidableEq

/-- `maxVal_all, _, _, _ = zip(*results)` (line 47): `zip` raises
`TypeError` as soon as one per-angle result is `None` (a `None` is not
iterable). -/
def unzipResults : List (Option Found) → Option (List Found)
  | [] => some []
  | none :: _ => none
  | some f :: rest => (unzipResults rest).map (f :: ·)

/-- `ind = np.argmax(maxVal_all); results[ind]` (lines 49-50): the
first-seen maximum of the per-angle best correlations. -/
def argmaxFound (f : Found) (fs : List Found) : Found :=
  fs.foldl (fun best g => if best.maxVal < g.maxVal then g else best) f

/-- The result-selection skeleton of `detect_card` (lines 39-63): unpack
all per-angle results — raising `TypeError` when some angle produced
`None`, and `ValueError` when the angle list is empty and unpacking the
empty `zip()` into four variables fails — then select the first-seen best
result (whose `maxVal` is the reported confidence). -/
def detect_card (results : List (Option Found)) : Except PyError Found :=
  match unzipResults results with
  | none => .error .typeError
  | some [] => .error .valueError
  | some (f :: fs) => .ok (argmaxFound f fs)

/-- C7: for every angle, the scale loop stops at the first scale whose
resized image is smaller than the template in either dimension: the
evaluated scales are exactly the longest all-large prefix of the scale
list, and everything after the first too-small scale is skipped even if a
later scale would be valid (the result does not depend on it at all). -/
theorem scale_loop_early_exit :
    (∀ Hc Wc found items, (scaleLoop Hc Wc found items).2 =
      items.takeWhile
        (fun it => !(decide (it.resizedH < Hc ∨ it.resizedW < Wc)))) ∧
    (∀ Hc Wc found pre bad post,
      (∀ x ∈ pre, ¬(x.resizedH < Hc ∨ x.resizedW < Wc)) →
      (bad.resizedH < Hc ∨ bad.resizedW < Wc) →
      scaleLoop Hc Wc found (pre ++ bad :: post) =
        scaleLoop Hc Wc found pre) := by
  constructor
  · intro Hc Wc found items
    induction items generalizing found with
    | nil => rfl
    | cons it rest ih =>
      by_cases h : it.resizedH < Hc ∨ it.resizedW < Wc
      · simp only [scaleLoop]
        rw [if_pos h, List.takeWhile_cons_of_neg (by simp [h])]
      · simp only [scaleLoop]
        rw [if_neg h, List.takeWhile_cons_of_pos (by simp [h])]
        rw [ih (updateFound found it)]
  · intro Hc Wc found pre bad post hpre hbad
    induction pre generalizing found with
    | nil =>
      show scaleLoop Hc Wc found (bad :: post) = scaleLoop Hc Wc found []
      simp only [scaleLoop]
      rw [if_pos hbad]
    | cons x pre' ih =>
      have hx : ¬(x.resizedH < Hc ∨ x.resizedW < Wc) :=
        hpre x (List.mem_cons_self x pre')
      have hpre' : ∀ y ∈ pre', ¬(y.resizedH < Hc ∨ y.resizedW < Wc) :=
        fun y hy => hpre y (List.mem_cons_of_mem x hy)
      show scaleLoop Hc Wc found (x :: (pre' ++ bad :: post)) =
        scaleLoop Hc Wc found (x :: pre')
      simp only [scaleLoop]
      rw [if_neg hx, if_neg hx, ih (updateFound found x) hpre']

/-- Witness for C7: with template 10x10, a too-small second scale cuts
the scan, and a valid third scale is never evaluated. -/
theorem scale_loop_early_exit_witness :
    scaleLoop 10 10 none
        [⟨20, 20, 2, (0, 0), 1, 1⟩, ⟨5, 20, 1, (0, 0), 1, 1⟩,
          ⟨30, 30, 3, (0, 0), 1, 2⟩] =
      scaleLoop 10 10 none [⟨20, 20, 2, (0, 0), 1, 1⟩] :=
  scale_loop_early_exit.2 10 10 none [⟨20, 20, 2, (0, 0), 1, 1⟩]
    ⟨5, 20, 1, (0, 0), 1, 1⟩ [⟨30, 30, 3, (0, 0), 1, 2⟩]
    (by
      intro x hx
      rw [List.mem_singleton] at hx
      subst hx
      decide)
    (by decide)

/-- `zip(*results)` fails as soon as a `None` is present. -/
theorem unzipResults_none {l : List (Option Found)} (h : none ∈ l) :
    unzipResults l = none := by
  induction l with
  | nil => simp at h
  | cons r rs ih =>
    cases r with
    | none => rfl
    | some f =>
      rcases List.mem_cons.1 h with h1 | h2
      · exact absurd h1 (by simp)
      · show (unzipResults rs).map (f :: ·) = none
        rw [ih h2]
        rfl

/-- C2 (amended): when every candidate scale for an angle produces a
resized image smaller than the template, `paralell_search` returns `None`
for that angle without raising; but `detect_card` then raises `TypeError`
while unpacking `zip(*results)` whenever at least one angle's result is
`None` — in particular when all angles fail — instead of reporting a zero
or undefined confidence. -/
theorem detect_card_none_crash :
    (∀ Hc Wc items, (∀ it ∈ items, it.resizedH < Hc ∨ it.resizedW < Wc) →
      paralell_search Hc Wc items = none) ∧
    (∀ results, none ∈ results →
      detect_card results = .error .typeError) := by
  constructor
  · intro Hc Wc items h
    cases items with
    | nil => rfl
    | cons it rest =>
      have hit := h it (List.mem_cons_self it rest)
      unfold paralell_search scaleLoop
      rw [if_pos hit]
  · intro results h
    unfold detect_card
    rw [unzipResults_none h]

/-- Witness for C2 (amended): a two-scale angle where both scales are too
small yields `None`; `detect_card` on a `None` next to a successful angle
raises `TypeError`. -/
theorem detect_card_none_crash_witness :
    paralell_search 10 10
        [⟨5, 8, 1, (0, 0), 1, 1⟩, ⟨4, 4, 1, (0, 0), 1, 1⟩] = none ∧
    detect_card [none, some ⟨2, (0, 0), 1, 1⟩] = .error .typeError :=
  ⟨detect_card_none_crash.1 10 10 _ (by decide),
    detect_card_none_crash.2 _ (by simp)⟩

/-- C2 counterexample: for a template of size 10x10 and an angle whose
single candidate scale resizes to 5x5 (smaller than the template),
`paralell_search` returns `None`, and the overall `detect_card` call on
the per-angle results raises `TypeError` — it does not report a zero or
undefined confidence — even when another angle succeeded. -/
theorem detect_card_crash_counterexample :
    paralell_search 10 10 [⟨5, 5, 1, (0, 0), 1, 1⟩] = none ∧
    detect_card [paralell_search 10 10 [⟨5, 5, 1, (0, 0), 1, 1⟩]] =
      .error .typeError ∧
    detect_card [paralell_search 10 10 [⟨5, 5, 1, (0, 0), 1, 1⟩],
      some ⟨2, (0, 0), 1, 1⟩] = .error .typeError :=
  ⟨rfl, rfl, rfl⟩

end ColorCorrect
